import Mathlib

/-!
Verification of the SAS+ → DyPDL translator (`pddl2dypdl/sas2dypdl.py`).

The Python source is shallowly embedded: the parser `_parse`, the encoder
methods `_handle_variables`, `_handle_operators`, `_handle_goal`, the gate
`transform`, and the axiom-stratification loop of `_handle_axioms`
(lines 178-196) become executable Lean functions.  Python exceptions
(AssertionError, KeyError, ValueError, TypeError/AttributeError, IndexError,
NotImplementedError) are modelled by the error type `PyErr` in an `Except`
monad; Python `dict`s (insertion ordered, int keys) by association lists.
-/

set_option maxHeartbeats 1600000
set_option maxRecDepth 8000

namespace Pddl2Dypdl

deriving instance DecidableEq for Except

/-- Error kinds a run of the translator can raise, mirroring the Python
exception classes that the source can produce.  `attributeError` stands for
calling a method on `None` (an exhausted line iterator), `typeError` for
passing `None` to `int()`/`float()` or adding `None + 1`. -/
inductive PyErr where
  | assertionError (msg : String)
  | keyError (key : Int)
  | valueError
  | typeError
  | attributeError
  | indexError
  | notImplementedError (msg : String)
deriving DecidableEq, Repr

/-- Python `dict[int, α]` lookup `d[k]`, returning `none` on a missing key.
Every dict the translator builds has unique keys, so first-match lookup is
the dict's lookup. -/
def dGet {α : Type} : List (Int × α) → Int → Option α
  | [], _ => none
  | p :: d, k => if p.1 == k then some p.2 else dGet d k

/-- Python `k in d` on a `dict[int, α]`. -/
def dMem {α : Type} (d : List (Int × α)) (k : Int) : Bool :=
  (dGet d k).isSome

/-- Python `d[k] = v` on a `dict[int, α]`: an existing key keeps its position
and gets the new value, a new key is appended (insertion order). -/
def dSet {α : Type} : List (Int × α) → Int → α → List (Int × α)
  | [], k, v => [(k, v)]
  | p :: d, k, v => if p.1 == k then (k, v) :: d else p :: dSet d k v

/-- Whitespace trimming on a character list (both ends), standing in for
`str.strip` behaviour inside Python's numeric conversions. -/
def trimChars (l : List Char) : List Char :=
  ((l.dropWhile Char.isWhitespace).reverse.dropWhile Char.isWhitespace).reverse

/-- Split a character list on whitespace runs, dropping empty pieces: the
worker behind Python `str.split()` with no argument.  `cur` holds the
characters of the token being read, reversed. -/
def splitWsAux : List Char → List Char → List String
  | [], cur => if cur = [] then [] else [String.mk cur.reverse]
  | c :: cs, cur =>
    if c.isWhitespace then
      if cur = [] then splitWsAux cs []
      else String.mk cur.reverse :: splitWsAux cs []
    else splitWsAux cs (c :: cur)

/-- Python `str.split()` with no argument. -/
def pySplit (s : String) : List String := splitWsAux s.data []

/-- The value of a non-empty run of decimal digits; `none` as soon as a
non-digit appears. -/
def digitsVal : List Char → Nat → Option Nat
  | [], acc => some acc
  | c :: cs, acc =>
    if c.isDigit then digitsVal cs (acc * 10 + (c.toNat - 48)) else none

/-- A digit string's value: `none` for empty or non-digit input. -/
def digitsToNat? (l : List Char) : Option Nat :=
  if l = [] then none else digitsVal l 0

/-- An optional leading minus then digits, the grammar `String.toInt?` and
Python `int()` share on the SAS+ literals. -/
def intOfChars : List Char → Option Int
  | '-' :: rest => (digitsToNat? rest).map (fun n => -(n : Int))
  | l => (digitsToNat? l).map (fun n => (n : Int))

/-- Python `int(s)` on the decimal literals the SAS+ format carries (optional
leading `-`, digits, surrounding whitespace); a non-literal raises
`ValueError`. -/
def pyInt (s : String) : Except PyErr Int :=
  match intOfChars (trimChars s.data) with
  | some n => .ok n
  | none => .error .valueError

/-- Python `str.startswith`. -/
def strStarts (s pre : String) : Bool := pre.data.isPrefixOf s.data

/-- Split a character list on `'.'`, keeping empty pieces: Python
`str.split(".")` as used on the cost literal. -/
def splitDot : List Char → List Char → List (List Char)
  | [], cur => [cur.reverse]
  | c :: cs, cur =>
    if c = '.' then cur.reverse :: splitDot cs []
    else splitDot cs (c :: cur)

/-- Python `int(line)` where `line` came from `get_line()`: `int(None)` raises
`TypeError`. -/
def pyIntOpt : Option String → Except PyErr Int
  | none => .error .typeError
  | some s => pyInt s

/-- An unsigned decimal body as `pyFloat` reads it: the integer part, the
fractional part and the fractional length, or `none` for a body that is no
decimal literal. -/
def decBody (u : List Char) : Option (Nat × Nat × Nat) :=
  match splitDot u [] with
  | [a] => (digitsToNat? a).map (fun n => (n, 0, 0))
  | [a, b] =>
    match (if a = [] then some 0 else digitsToNat? a),
        (if b = [] then some 0 else digitsToNat? b) with
    | some ia, some nb =>
      if a = [] && b = [] then none else some (ia, nb, b.length)
    | _, _ => none
  | _ => none

/-- The signed decimal body's exact rational value. -/
def decValue (sgn : Int) (u : List Char) : Option ℚ :=
  (decBody u).map (fun t =>
    mkRat (sgn * ((t.1 * 10 ^ t.2.2 + t.2.1 : Nat) : Int)) (10 ^ t.2.2))

/-- Python `float(s)` restricted to the finite decimal literals the SAS+ cost
field carries (optional sign, an integer part and/or a fractional part): the
literal's exact rational value, built from core `Rat` primitives.  CPython
rounds the literal to a binary double; for the short literals the SAS+
generator emits, that double is the literal's exact value, so the exact
rational is the faithful model. -/
def pyFloat (s : String) : Except PyErr ℚ :=
  match
    (match trimChars s.data with
     | '-' :: rest => decValue (-1) rest
     | '+' :: rest => decValue 1 rest
     | t => decValue 1 t)
  with
  | some q => .ok q
  | none => .error .valueError

/-- Python `float(line)` for a `get_line()` result: `float(None)` raises
`TypeError`. -/
def pyFloatOpt : Option String → Except PyErr ℚ
  | none => .error .typeError
  | some s => pyFloat s

/-- Python 3 `round(q)` on an exact value: round half to even, written with
the floor `q.num.fdiv q.den` and the remainder so that it computes by integer
arithmetic. -/
def pyRound (q : ℚ) : ℤ :=
  let f := q.num.fdiv (q.den : Int)
  let r := q.num - f * (q.den : Int)
  if 2 * r < (q.den : Int) then f
  else if (q.den : Int) < 2 * r then f + 1
  else if f % 2 = 0 then f else f + 1

/-- The cost gate of the operator parser, line 142 of the source:
`int(round(cost)) == float(cost)`, the integer compared with the exact
value.  `true` exactly when the parsed cost is accepted. -/
def costCheck (q : ℚ) : Bool :=
  (mkRat (pyRound q) 1 == q)

/-- Python `==` between a `str` and an `int`: always `False` (no coercion). -/
def pyEqStrInt (_ : String) (_ : Int) : Bool := false

/-- The membership test `var_index not in preconditions` of the rule parser
(line 93): `var_index` is still a `str` there while the dict's keys are
`int`s, so the test compares a `str` against `int` keys. -/
def strKeyMem (s : String) (d : List (Int × Int)) : Bool :=
  d.any (fun p => pyEqStrInt s p.1)

/-- One multi-valued SAS+ state feature (dataclass `Variable`). -/
structure Variable where
  name : String
  values : List String
  axiom_layer : Int
deriving DecidableEq, Repr

/-- One derivation rule (dataclass `Rule`). -/
structure Rule where
  preconditions : List (Int × Int)
  var : Int
  val : Int
deriving DecidableEq, Repr

/-- One operator (dataclass `Operator`); the cost is stored after the
integer-rounding gate, hence an `Int`. -/
structure Operator where
  name : String
  preconditions : List (Int × Int)
  effects : List (Int × Int)
  cost : Int
deriving DecidableEq, Repr

/-- The state `_parse` accumulates on `self`: the two feature flags, the
initial and goal assignments, the variables (the dict `self._variables` has
keys `0..n-1` in order, so a list indexed by position, named `vars` because
`variables` is a reserved word), rules, operators, and
the axiom head/edge dicts. -/
structure ParseState where
  detected_axioms : Bool := false
  detected_conditional_effects : Bool := false
  init : List (Int × Int) := []
  goal : List (Int × Int) := []
  vars : List Variable := []
  rules : List Rule := []
  operators : List Operator := []
  axiom_heads : List (Int × List Rule) := []
  axiom_edges : List (Int × List Int) := []
deriving DecidableEq, Repr

/-- Lookup `self._variables[var]`: the dict's keys are exactly the positions
`0..n-1`, so a missing or negative index raises `KeyError`. -/
def varsGet (vs : List Variable) (k : Int) : Except PyErr Variable :=
  if k < 0 then .error (.keyError k)
  else
    match vs[k.toNat]? with
    | some v => .ok v
    | none => .error (.keyError k)

/-- Python `set.update(keys)` modelled on a duplicate-free list: append each
key not already present, keeping a deterministic order. -/
def setUpdate (s : List Int) (ks : List Int) : List Int :=
  ks.foldl (fun acc k => if acc.contains k then acc else acc ++ [k]) s

/-- Lines 108-110: `self._axiom_heads[var].append(rule)`, creating the entry
first when absent. -/
def headsAppend : List (Int × List Rule) → Int → Rule → List (Int × List Rule)
  | [], k, r => [(k, [r])]
  | p :: d, k, r =>
    if p.1 == k then (p.1, p.2 ++ [r]) :: d else p :: headsAppend d k r

/-- Lines 112-114: `self._axiom_edges[var].update(preconditions.keys())`,
creating the set first when absent. -/
def edgesUpdate : List (Int × List Int) → Int → List Int → List (Int × List Int)
  | [], k, ks => [(k, setUpdate [] ks)]
  | p :: d, k, ks =>
    if p.1 == k then (p.1, setUpdate p.2 ks) :: d else p :: edgesUpdate d k ks

/-- Python `toks[i]`: `IndexError` when the list is too short. -/
def idx {α : Type} (l : List α) (i : Nat) : Except PyErr α :=
  match l[i]? with
  | some a => .ok a
  | none => .error .indexError

/-- The pair-reading loop shared by operator preconditions (lines 119-124) and
the goal block (lines 148-153): `var, val = get_line().split()`, both converted
with `int()`, then `assert var not in acc` (an `int` key here, so the duplicate
check is effective) and `acc[var] = val`.  A two-token unpacking of a wrong
arity raises `ValueError`; splitting `None` raises `AttributeError`. -/
def parsePairs : Nat → List String → List (Int × Int) →
    Except PyErr (List (Int × Int) × List String)
  | 0, ls, acc => .ok (acc, ls)
  | _ + 1, [], _ => .error .attributeError
  | n + 1, l :: ls, acc =>
    match pySplit l with
    | [a, b] =>
      match pyInt a with
      | .error e => .error e
      | .ok var =>
        match pyInt b with
        | .error e => .error e
        | .ok val =>
          if dMem acc var then .error (.assertionError "var not in preconditions")
          else parsePairs n ls (acc ++ [(var, val)])
    | _ => .error .valueError

/-- The rule-precondition loop (lines 90-94): `value` is converted first, then
`assert var_index not in preconditions` compares the *string* `var_index`
against the dict's `int` keys (`strKeyMem`, vacuously false), and
`preconditions[int(var_index)] = value` stores — silently overwriting a
duplicate key. -/
def parseRulePairs : Nat → List String → List (Int × Int) →
    Except PyErr (List (Int × Int) × List String)
  | 0, ls, acc => .ok (acc, ls)
  | _ + 1, [], _ => .error .attributeError
  | n + 1, l :: ls, acc =>
    match pySplit l with
    | [a, b] =>
      match pyInt b with
      | .error e => .error e
      | .ok val =>
        if strKeyMem a acc then .error (.assertionError "var_index not in preconditions")
        else
          match pyInt a with
          | .error e => .error e
          | .ok var => parseRulePairs n ls (dSet acc var val)
    | _ => .error .valueError

/-- The effect-record loop (lines 127-140).  Each record is split into tokens;
`cond`, `var`, `pre`, `post` are read by index and converted.  A non-zero
guard count flips the conditional-effects flag and skips the record; otherwise
the pre value is merged into the precondition dict (whatever it is, `-1`
included) and the post value into the effect dict, after the two
duplicate-key asserts. -/
def parseEffects : Nat → List String → List (Int × Int) → List (Int × Int) →
    Bool → Except PyErr (List (Int × Int) × List (Int × Int) × Bool × List String)
  | 0, ls, pre, eff, flag => .ok (pre, eff, flag, ls)
  | _ + 1, [], _, _, _ => .error .attributeError
  | n + 1, l :: ls, pre, eff, flag =>
    match idx (pySplit l) 0 with
    | .error e => .error e
    | .ok t0 =>
      match pyInt t0 with
      | .error e => .error e
      | .ok cond =>
        match idx (pySplit l) 1 with
        | .error e => .error e
        | .ok t1 =>
          match pyInt t1 with
          | .error e => .error e
          | .ok var =>
            match idx (pySplit l) 2 with
            | .error e => .error e
            | .ok t2 =>
              match pyInt t2 with
              | .error e => .error e
              | .ok preV =>
                match idx (pySplit l) 3 with
                | .error e => .error e
                | .ok t3 =>
                  match pyInt t3 with
                  | .error e => .error e
                  | .ok post =>
                    if cond ≠ 0 then parseEffects n ls pre eff true
                    else if dMem pre var then
                      .error (.assertionError "var not in preconditions")
                    else if dMem eff var then
                      .error (.assertionError "var not in effects")
                    else parseEffects n ls (pre ++ [(var, preV)]) (eff ++ [(var, post)]) flag

/-- The initial-state loop (lines 156-158): one `int(get_line())` per declared
variable, written into the init dict in declaration order.  Throughout the
block parsers, `get_line()` is the stream's `head?` (with `none` for the
exhausted iterator) and advancing it is `tail`. -/
def parseStateVals : Nat → Int → List String → List (Int × Int) →
    Except PyErr (List (Int × Int) × List String)
  | 0, _, ls, acc => .ok (acc, ls)
  | n + 1, i, ls, acc =>
    match pyIntOpt ls.head? with
    | .error e => .error e
    | .ok val => parseStateVals n (i + 1) ls.tail (dSet acc i val)

/-- The `begin_variable` block (lines 71-83).  Reads name, axiom layer, value
count and that many value labels, asserts the closing delimiter, then asserts
the declared name equals the positional convention `"var" ++ i` where `i` is
the number of variables parsed so far, and appends the variable (its id is its
position).  If the stream runs dry inside the value labels the delimiter
assert necessarily fails, so a truncated block never reaches the state. -/
def parseVariableBlock (st : ParseState) (ls : List String) :
    Except PyErr (ParseState × List String) :=
  match pyIntOpt ls.tail.head? with
  | .error e => .error e
  | .ok axiom_layer =>
    match pyIntOpt ls.tail.tail.head? with
    | .error e => .error e
    | .ok n_values =>
      if (ls.tail.tail.tail.drop n_values.toNat).head? = some "end_variable" then
        if ls.head? = some ("var" ++ toString st.vars.length) then
          .ok ({ st with vars := st.vars ++
            [⟨"var" ++ toString st.vars.length,
              ls.tail.tail.tail.take n_values.toNat, axiom_layer⟩] },
            (ls.tail.tail.tail.drop n_values.toNat).tail)
        else .error (.assertionError "f-string var id == var_name")
      else .error (.assertionError "end_variable")

/-- The `begin_rule` block (lines 84-114).  The axioms flag is set on entry in
the source; since any later failure aborts the whole parse (the constructor
raises), recording the flag only in the returned success state is
observationally equal.  Reads the precondition count and pairs, then the
`(var, old, new)` triple; asserts the three-token arity, that the head
variable's domain is the two-valued `Atom…`/`NegatedAtom…` convention, and
that the new value is 0; appends the rule and updates the head and edge
dicts. -/
def parseRuleBlock (st : ParseState) (ls : List String) :
    Except PyErr (ParseState × List String) :=
  match pyIntOpt ls.head? with
  | .error e => .error e
  | .ok n_preconditions =>
    match parseRulePairs n_preconditions.toNat ls.tail [] with
    | .error e => .error e
    | .ok pr =>
      match pr.2.head? with
      | none => .error .attributeError
      | some tl =>
        match pySplit tl with
        | [t0, _t1, t2] =>
          match pyInt t0 with
          | .error e => .error e
          | .ok var =>
            match pyInt t2 with
            | .error e => .error e
            | .ok val =>
              match varsGet st.vars var with
              | .error e => .error e
              | .ok v =>
                match v.values with
                | [v0, v1] =>
                  if strStarts v0 "Atom" then
                    if strStarts v1 "NegatedAtom" then
                      if val = 0 then
                        if pr.2.tail.head? = some "end_rule" then
                          .ok ({ st with
                            detected_axioms := true,
                            rules := st.rules ++ [⟨pr.1, var, val⟩],
                            axiom_heads := headsAppend st.axiom_heads var
                              ⟨pr.1, var, val⟩,
                            axiom_edges := edgesUpdate st.axiom_edges var
                              (pr.1.map (fun p => p.1)) }, pr.2.tail.tail)
                        else .error (.assertionError "end_rule")
                      else .error (.assertionError "val == 0")
                    else .error (.assertionError "values[1].startswith NegatedAtom")
                  else .error (.assertionError "values[0].startswith Atom")
                | _ => .error (.assertionError "len values == 2")
        | _ => .error (.assertionError "len toks == 3")

/-- The `begin_operator` block (lines 115-145).  Reads name, precondition
count and pairs, effect count and effect records (which may flip the
conditional-effects flag and merge pre values into the precondition dict),
then the cost line: `float()`, the `int(round(cost)) == float(cost)` assert,
and `int(round(cost))`.  The operator is appended and the closing delimiter
asserted.  An exhausted stream at the name line surfaces as `TypeError` at the
following `int(get_line())`, as in the source. -/
def parseOperatorBlock (st : ParseState) (ls : List String) :
    Except PyErr (ParseState × List String) :=
  match pyIntOpt ls.tail.head? with
  | .error e => .error e
  | .ok n_preconditions =>
    match parsePairs n_preconditions.toNat ls.tail.tail [] with
    | .error e => .error e
    | .ok pr =>
      match pyIntOpt pr.2.head? with
      | .error e => .error e
      | .ok n_effects =>
        match parseEffects n_effects.toNat pr.2.tail pr.1 []
            st.detected_conditional_effects with
        | .error e => .error e
        | .ok pe =>
          match pyFloatOpt pe.2.2.2.head? with
          | .error e => .error e
          | .ok cost =>
            if costCheck cost then
              match ls.head? with
              | none => .error .typeError
              | some nm =>
                if pe.2.2.2.tail.head? = some "end_operator" then
                  .ok ({ st with
                    detected_conditional_effects := pe.2.2.1,
                    operators := st.operators ++
                      [⟨nm, pe.1, pe.2.1, pyRound cost⟩] }, pe.2.2.2.tail.tail)
                else .error (.assertionError "end_operator")
            else .error (.assertionError "action costs must be int")

/-- The `begin_goal` block (lines 146-154): precondition-style pairs merged
into the (possibly already populated) goal dict, duplicates fatal, then the
closing delimiter. -/
def parseGoalBlock (st : ParseState) (ls : List String) :
    Except PyErr (ParseState × List String) :=
  match pyIntOpt ls.head? with
  | .error e => .error e
  | .ok n_goals =>
    match parsePairs n_goals.toNat ls.tail st.goal with
    | .error e => .error e
    | .ok pr =>
      if pr.2.head? = some "end_goal" then
        .ok ({ st with goal := pr.1 }, pr.2.tail)
      else .error (.assertionError "end_goal")

/-- The `begin_state` block (lines 155-159): one value per variable declared
so far, then the closing delimiter. -/
def parseStateBlock (st : ParseState) (ls : List String) :
    Except PyErr (ParseState × List String) :=
  match parseStateVals st.vars.length 0 ls st.init with
  | .error e => .error e
  | .ok pr =>
    if pr.2.head? = some "end_state" then
      .ok ({ st with init := pr.1 }, pr.2.tail)
    else .error (.assertionError "end_state")

/-- The main `while` loop of `_parse` (lines 67-159), fuelled.  Every
iteration consumes at least one line, so `fuel = ls.length` makes the zero
fuel case coincide with the exhausted-stream exit (`line is None: break`);
`parseLines` below instantiates it that way, making this a faithful,
structurally recursive rendering of the loop.  A line that opens no known
block is skipped. -/
def parseLinesF : Nat → List String → ParseState → Except PyErr ParseState
  | 0, _, st => .ok st
  | _ + 1, [], st => .ok st
  | fuel + 1, line :: rest, st =>
    if line = "begin_variable" then
      match parseVariableBlock st rest with
      | .error e => .error e
      | .ok out => parseLinesF fuel out.2 out.1
    else if line = "begin_rule" then
      match parseRuleBlock st rest with
      | .error e => .error e
      | .ok out => parseLinesF fuel out.2 out.1
    else if line = "begin_operator" then
      match parseOperatorBlock st rest with
      | .error e => .error e
      | .ok out => parseLinesF fuel out.2 out.1
    else if line = "begin_goal" then
      match parseGoalBlock st rest with
      | .error e => .error e
      | .ok out => parseLinesF fuel out.2 out.1
    else if line = "begin_state" then
      match parseStateBlock st rest with
      | .error e => .error e
      | .ok out => parseLinesF fuel out.2 out.1
    else parseLinesF fuel rest st

/-- `_parse` over the document's line list. -/
def parseLines (ls : List String) (st : ParseState) : Except PyErr ParseState :=
  parseLinesF ls.length ls st

/-- A value stored in `self._didp_variables`: the object `didppy` returns for
a registered integer state variable, or for a boolean state function built
for an axiom head.  Each is identified by the SAS+ variable id it encodes. -/
inductive DidpObj where
  | intVar (id : Int)
  | boolFun (id : Int)
deriving DecidableEq, Repr

/-- A condition the encoder can place in a precondition list or base case:
`didp_variables[var] == val`, a bare reference to a boolean object, or its
`~` negation. -/
inductive Cond where
  | eqObj (o : DidpObj) (val : Int)
  | refObj (o : DidpObj)
  | negObj (o : DidpObj)
deriving DecidableEq, Repr

/-- A registered `dp.Transition`: name, the integer cost added to the running
`state_cost()`, the precondition list and the `(state variable, new value)`
effect pairs. -/
structure Transition where
  name : String
  costDelta : Int
  preconditions : List Cond
  effects : List (DidpObj × Int)
deriving DecidableEq, Repr

/-- The observable construction calls made on the external `dp.Model`:
integer state variables with their targets, transitions, base cases. -/
structure DidpModel where
  intVars : List (String × Int) := []
  transitions : List Transition := []
  baseCases : List (List Cond) := []
deriving DecidableEq, Repr

/-- The model object `dp.Model()` as freshly constructed (line 39). -/
def DidpModel.empty : DidpModel := {}

/-- Lookup `self._didp_variables[var]` (a `dict[int, object]`). -/
def didpGet (dvars : List (Int × DidpObj)) (k : Int) : Except PyErr DidpObj :=
  match dGet dvars k with
  | some o => .ok o
  | none => .error (.keyError k)

/-- `_handle_variables` (lines 161-169): for every variable, in id order, skip
axiom heads, read the initial value `self._init[i]` (a missing key raises
`KeyError`) and register an integer state variable with that target, recording
the returned object in the `didp_variables` dict. -/
def handle_variables (vs : List Variable) (heads : List Int)
    (init : List (Int × Int)) (m : DidpModel) :
    Except PyErr (DidpModel × List (Int × DidpObj)) :=
  vs.enum.foldlM
    (fun acc iv =>
      if heads.contains (iv.1 : Int) then pure acc
      else
        match dGet init (iv.1 : Int) with
        | none => .error (.keyError (iv.1 : Int))
        | some target =>
          pure ({ acc.1 with intVars := acc.1.intVars ++ [(iv.2.name, target)] },
            acc.2 ++ [((iv.1 : Int), DidpObj.intVar (iv.1 : Int))]))
    (m, [])

/-- The per-operator precondition builder of `_handle_operators`
(lines 253-260): a `-1` value is skipped; a non-head variable contributes the
equality test `didp_variables[var] == val`; a head variable contributes the
bare boolean reference. -/
def buildPreconds (dvars : List (Int × DidpObj)) (heads : List Int) :
    List (Int × Int) → List Cond → Except PyErr (List Cond)
  | [], acc => .ok acc
  | p :: ps, acc =>
    if p.2 = -1 then buildPreconds dvars heads ps acc
    else if !heads.contains p.1 then
      match didpGet dvars p.1 with
      | .error e => .error e
      | .ok o => buildPreconds dvars heads ps (acc ++ [Cond.eqObj o p.2])
    else
      match didpGet dvars p.1 with
      | .error e => .error e
      | .ok o => buildPreconds dvars heads ps (acc ++ [Cond.refObj o])

/-- The per-operator effect builder of `_handle_operators` (lines 261-264):
asserts the target is not an axiom head, then pairs the state-variable object
with the new value. -/
def buildEffects (dvars : List (Int × DidpObj)) (heads : List Int) :
    List (Int × Int) → List (DidpObj × Int) →
    Except PyErr (List (DidpObj × Int))
  | [], acc => .ok acc
  | p :: ps, acc =>
    if heads.contains p.1 then .error (.assertionError "var not in axiom heads")
    else
      match didpGet dvars p.1 with
      | .error e => .error e
      | .ok o => buildEffects dvars heads ps (acc ++ [(o, p.2)])

/-- `_handle_operators` (lines 250-272): one transition per operator, with
cost `op.cost + dp.IntExpr.state_cost()` (the operator cost as a delta over
the running cost), registered on the model in order. -/
def handle_operators (ops : List Operator) (heads : List Int)
    (dvars : List (Int × DidpObj)) (m : DidpModel) : Except PyErr DidpModel :=
  ops.foldlM
    (fun acc op => do
      let pcs ← buildPreconds dvars heads op.preconditions []
      let efs ← buildEffects dvars heads op.effects []
      pure { acc with transitions := acc.transitions ++
        [⟨op.name, op.cost, pcs, efs⟩] })
    m

/-- The base-case builder of `_handle_goal` (lines 275-284): for a goal entry
on an axiom head, value 1 contributes the bare boolean reference and value 0
(after `assert val == 0`) its negation; any other entry contributes
`didp_variables[var] == val`. -/
def buildBaseCase (dvars : List (Int × DidpObj)) (heads : List Int) :
    List (Int × Int) → List Cond → Except PyErr (List Cond)
  | [], acc => .ok acc
  | g :: gs, acc =>
    if heads.contains g.1 then
      if g.2 = 1 then
        match didpGet dvars g.1 with
        | .error e => .error e
        | .ok o => buildBaseCase dvars heads gs (acc ++ [Cond.refObj o])
      else if g.2 = 0 then
        match didpGet dvars g.1 with
        | .error e => .error e
        | .ok o => buildBaseCase dvars heads gs (acc ++ [Cond.negObj o])
      else .error (.assertionError "val == 0")
    else
      match didpGet dvars g.1 with
      | .error e => .error e
      | .ok o => buildBaseCase dvars heads gs (acc ++ [Cond.eqObj o g.2])

/-- `_handle_goal` (lines 274-285): build the base case and add it to the
model. -/
def handle_goal (dvars : List (Int × DidpObj)) (heads : List Int)
    (goal : List (Int × Int)) (m : DidpModel) : Except PyErr DidpModel :=
  match buildBaseCase dvars heads goal [] with
  | .error e => .error e
  | .ok bc => .ok { m with baseCases := m.baseCases ++ [bc] }

/-- The keys of `self._axiom_heads` (the derived variables). -/
def headKeys (d : List (Int × List Rule)) : List Int := d.map (fun p => p.1)

/-- The `Sas2DypdlTransformer` object after a successful `__init__`: the
parse result and the still-empty model. -/
structure Sas2DypdlTransformer where
  st : ParseState
  model : DidpModel
deriving DecidableEq, Repr

/-- `Sas2DypdlTransformer(sas_content)` over the content's line list: creates
the fresh model and parses; a parse failure propagates out of the
constructor. -/
def mkTransformer (ls : List String) : Except PyErr Sas2DypdlTransformer :=
  match parseLines ls {} with
  | .error e => .error e
  | .ok st => .ok ⟨st, DidpModel.empty⟩

/-- The message of the `NotImplementedError` raised by `transform`
(line 289). -/
def unsupportedMsg : String :=
  "Axioms and conditional effects are not yet supported."

/-- `transform` (lines 287-294): the unsupported-feature gate over the two
flags, then variables, operators and goal are encoded into the model. -/
def Sas2DypdlTransformer.transform (t : Sas2DypdlTransformer) :
    Except PyErr DidpModel :=
  if t.st.detected_axioms || t.st.detected_conditional_effects then
    .error (.notImplementedError unsupportedMsg)
  else
    match handle_variables t.st.vars (headKeys t.st.axiom_heads) t.st.init
        t.model with
    | .error e => .error e
    | .ok (m1, dvars) =>
      match handle_operators t.st.operators (headKeys t.st.axiom_heads) dvars m1 with
      | .error e => .error e
      | .ok m2 => handle_goal dvars (headKeys t.st.axiom_heads) t.st.goal m2

/-- Truth of a condition under a full assignment: `σ` gives each integer
state variable's value, `τ` each derived boolean state function's value.  The
encoder only ever builds `eqObj` on `intVar` and `refObj`/`negObj` on
`boolFun`; the other combinations are given a vacuous value. -/
def Cond.eval (σ : Int → Int) (τ : Int → Bool) : Cond → Bool
  | .eqObj (DidpObj.intVar i) v => σ i == v
  | .eqObj (DidpObj.boolFun _) _ => false
  | .refObj (DidpObj.boolFun i) => τ i
  | .refObj (DidpObj.intVar _) => false
  | .negObj (DidpObj.boolFun i) => !τ i
  | .negObj (DidpObj.intVar _) => false

/-- A base case (a conjunction of conditions) is satisfied when every
condition holds. -/
def condsSat (σ : Int → Int) (τ : Int → Bool) (conds : List Cond) : Bool :=
  conds.all (Cond.eval σ τ)

/-! The axiom stratifier: the value-iteration loop of `_handle_axioms`,
lines 178-196.  The maps `cur_V`/`new_V` carry `Option Nat` values because
`cur_V` starts as `{i: None}`; the `None`s are never read (the copy at the
loop head precedes every read), and reading one would be Python's
`None + 1` `TypeError`. -/

/-- The inner `update` computation (lines 190-193): starting from 1, take the
max of `cur_V[i] + 1` over the body variables that are heads. -/
def layerUpdate (curV : List (Int × Option Nat)) :
    List Int → Nat → Except PyErr Nat
  | [], u => .ok u
  | i :: body, u =>
    match dGet curV i with
    | some (some w) => layerUpdate curV body (max u (w + 1))
    | some none => .error .typeError
    | none => layerUpdate curV body u

/-- One round of the relaxation (lines 189-194): every head's entry of the
new map is overwritten with its recomputed layer, all reads going to the
copied `cur_V`. -/
def relax (curV : List (Int × Option Nat)) :
    List (Int × List Int) → List (Int × Option Nat) →
    Except PyErr (List (Int × Option Nat))
  | [], newV => .ok newV
  | e :: es, newV =>
    match layerUpdate curV e.2 1 with
    | .error err => .error err
    | .ok u => relax curV es (dSet newV e.1 (some u))

/-- `is_diff` (lines 181-185) over the heads. -/
def isDiff (keys : List Int) (curV newV : List (Int × Option Nat)) : Bool :=
  keys.any (fun i => dGet newV i != dGet curV i)

/-- The `while is_diff()` loop (lines 187-194), observed for `fuel`
iterations: `.ok (some V)` when the loop exits with final map `V` within the
budget, `.ok none` when it is still iterating after `fuel` rounds.  The
source has no bound: a cycle keeps `is_diff` true forever. -/
def stratifyAux (edges : List (Int × List Int)) :
    Nat → List (Int × Option Nat) → List (Int × Option Nat) →
    Except PyErr (Option (List (Int × Option Nat)))
  | 0, _, _ => .ok none
  | fuel + 1, curV, newV =>
    if isDiff (edges.map (fun e => e.1)) curV newV then
      match relax newV edges newV with
      | .error e => .error e
      | .ok newV' => stratifyAux edges fuel newV newV'
    else .ok (some newV)

/-- The stratification loop from its initial maps (lines 178-179):
`cur_V = {i: None}`, `new_V = {i: 0}`. -/
def stratify (edges : List (Int × List Int)) (fuel : Nat) :
    Except PyErr (Option (List (Int × Option Nat))) :=
  stratifyAux edges fuel (edges.map (fun e => (e.1, (none : Option Nat))))
    (edges.map (fun e => (e.1, some 0)))

/-- The maximum, default 0, of the layers `curV` assigns to the body
variables that are heads: the quantity `update - 1` of lines 190-193. -/
def maxBodyLayer (curV : List (Int × Option Nat)) :
    List Int → Nat → Nat
  | [], m => m
  | i :: body, m =>
    match dGet curV i with
    | some (some w) => maxBodyLayer curV body (max m w)
    | _ => maxBodyLayer curV body m


/-! Concrete documents and objects used by the claim theorems, witnesses
and counterexamples below. -/

/-- C2 (failing input): the one-rule cyclic dependency `0 ← 0`. -/
def cycEdges : List (Int × List Int) := [((0 : Int), [(0 : Int)])]

/-- A fractional-cost operator document: cost literal `1.5`. -/
def c4FracDoc : List String :=
  ["begin_operator", "op0", "0", "1", "0 0 -1 1", "1.5", "end_operator"]

/-- A negative-cost operator document: cost literal `-3`. -/
def c4NegCostDoc : List String :=
  ["begin_operator", "op0", "0", "1", "0 0 -1 1", "-3", "end_operator"]

/-- An operator document whose single effect record carries the don't-care
pre-value `-1` on variable 2. -/
def c5DontCareDoc : List String :=
  ["begin_operator", "op0", "0", "1", "0 2 -1 1", "1", "end_operator"]

/-- A rule block whose precondition list names variable 2 twice. -/
def c6RuleDupDoc : List String :=
  ["begin_variable", "var0", "-1", "2", "Atom p()", "NegatedAtom p()",
   "end_variable",
   "begin_rule", "2", "2 0", "2 1", "0 1 0", "end_rule"]

/-- An operator block whose precondition list names variable 2 twice. -/
def c6OpDupDoc : List String :=
  ["begin_operator", "op0", "2", "2 0", "2 1", "0", "1", "end_operator"]

/-- A goal block naming variable 2 twice. -/
def c6GoalDupDoc : List String :=
  ["begin_goal", "2", "2 0", "2 1", "end_goal"]

/-- The parser state after one valid variable block (used by the witnesses
below). -/
def varSt : ParseState :=
  { vars := [⟨"var0", ["Atom p()", "NegatedAtom p()"], -1⟩] }

/-- A valid rule-block body with no preconditions, head variable 0, old
value 1, new value 0. -/
def c7Ls : List String := ["0", "0 1 0", "end_rule"]

/-- The parse result of that rule block. -/
def c7Out : ParseState × List String :=
  (parseRuleBlock varSt c7Ls).toOption.getD ({}, [])

/-- A document holding one boolean variable and one axiom (rule) block:
well-formed, parses, raises the axioms flag. -/
def c3Doc : List String :=
  ["begin_variable", "var0", "-1", "2", "Atom p()", "NegatedAtom p()",
   "end_variable",
   "begin_rule", "0", "0 1 0", "end_rule"]

/-- The transformer built from `c3Doc`. -/
def c3T : Sas2DypdlTransformer :=
  (mkTransformer c3Doc).toOption.getD ⟨{}, {}⟩

/-- A document with one variable and no initial-state block. -/
def c10Doc : List String :=
  ["begin_variable", "var0", "-1", "2", "Atom p()", "NegatedAtom p()",
   "end_variable"]

/-- The transformer built from `c10Doc`. -/
def c10T : Sas2DypdlTransformer :=
  (mkTransformer c10Doc).toOption.getD ⟨{}, {}⟩

/-- A document with two variables, a rule making variable 0 derived, and no
initial-state block: variable 1 is non-derived, no `begin_state` appears,
yet `transform` fails with the unsupported-feature error, not a key-lookup
error. -/
def c10AxDoc : List String :=
  ["begin_variable", "var0", "-1", "2", "Atom p()", "NegatedAtom p()",
   "end_variable",
   "begin_variable", "var1", "-1", "2", "Atom q()", "NegatedAtom q()",
   "end_variable",
   "begin_rule", "0", "0 1 0", "end_rule"]

/-! Association-list (Python dict) lemmas. -/

theorem dGet_dSet_self {α : Type} (d : List (Int × α)) (k : Int) (v : α) :
    dGet (dSet d k v) k = some v := by
  induction d with
  | nil => simp [dGet, dSet]
  | cons a d ih =>
    by_cases h : a.1 = k
    · simp [dGet, dSet, h]
    · simp [dGet, dSet, h, ih]

theorem dGet_dSet_ne {α : Type} (d : List (Int × α)) (k' k : Int) (v : α)
    (h : k' ≠ k) : dGet (dSet d k' v) k = dGet d k := by
  induction d with
  | nil => simp [dGet, dSet, h]
  | cons a d ih =>
    by_cases ha : a.1 = k'
    · have hak : a.1 ≠ k := by rw [ha]; exact h
      simp [dGet, dSet, ha, hak, h]
    · by_cases hak : a.1 = k
      · simp [dGet, dSet, ha, hak, Ne.symm h]
      · simp [dGet, dSet, ha, hak, ih]

/-! Stratifier lemmas: what the relaxation computes. -/

theorem layerUpdate_lower (curV : List (Int × Option Nat)) :
    ∀ (body : List Int) (u r : Nat), layerUpdate curV body u = .ok r →
      u ≤ r ∧ ∀ i ∈ body, ∀ w, dGet curV i = some (some w) → w + 1 ≤ r := by
  intro body
  induction body with
  | nil =>
    intro u r h
    simp only [layerUpdate] at h
    cases h
    exact ⟨Nat.le_refl _, by simp⟩
  | cons i body ih =>
    intro u r h
    simp only [layerUpdate] at h
    cases hg : dGet curV i with
    | none =>
      rw [hg] at h
      rcases ih _ _ h with ⟨h1, h2⟩
      refine ⟨h1, ?_⟩
      intro j hj w hw
      rcases List.mem_cons.mp hj with hj | hj
      · subst hj; rw [hg] at hw; cases hw
      · exact h2 j hj w hw
    | some o =>
      cases o with
      | none => rw [hg] at h; cases h
      | some w =>
        rw [hg] at h
        rcases ih _ _ h with ⟨h1, h2⟩
        refine ⟨Nat.le_trans (Nat.le_max_left _ _) h1, ?_⟩
        intro j hj w' hw
        rcases List.mem_cons.mp hj with hj | hj
        · subst hj
          rw [hg] at hw
          cases hw
          exact Nat.le_trans (Nat.le_max_right u _) h1
        · exact h2 j hj w' hw

theorem layerUpdate_val (curV : List (Int × Option Nat)) :
    ∀ (body : List Int) (a r : Nat), layerUpdate curV body (a + 1) = .ok r →
      r = maxBodyLayer curV body a + 1 := by
  intro body
  induction body with
  | nil =>
    intro a r h
    simp only [layerUpdate] at h
    cases h
    simp [maxBodyLayer]
  | cons i body ih =>
    intro a r h
    simp only [layerUpdate] at h
    cases hg : dGet curV i with
    | none => rw [hg] at h; simp only [maxBodyLayer, hg]; exact ih _ _ h
    | some o =>
      cases o with
      | none => rw [hg] at h; cases h
      | some w =>
        rw [hg] at h
        replace h : layerUpdate curV body (max (a + 1) (w + 1)) = .ok r := h
        have hmx : max (a + 1) (w + 1) = max a w + 1 := by omega
        rw [hmx] at h
        simp only [maxBodyLayer, hg]
        exact ih _ _ h

theorem relax_frame (curV : List (Int × Option Nat)) :
    ∀ (es : List (Int × List Int)) (acc W : List (Int × Option Nat)),
      relax curV es acc = .ok W → ∀ k, (∀ e ∈ es, e.1 ≠ k) →
        dGet W k = dGet acc k := by
  intro es
  induction es with
  | nil => intro acc W h k _; cases h; rfl
  | cons e es ih =>
    intro acc W h k hk
    simp only [relax] at h
    cases hu : layerUpdate curV e.2 1 with
    | error err => rw [hu] at h; cases h
    | ok u =>
      rw [hu] at h
      have := ih _ _ h k (fun e' he' => hk e' (List.mem_cons_of_mem _ he'))
      rw [this, dGet_dSet_ne _ _ _ _ (hk e (List.mem_cons_self _ _))]

theorem relax_head (curV : List (Int × Option Nat)) :
    ∀ (es : List (Int × List Int)) (acc W : List (Int × Option Nat)),
      relax curV es acc = .ok W → (es.map (fun e => e.1)).Nodup →
        ∀ e ∈ es, ∃ u, layerUpdate curV e.2 1 = .ok u ∧
          dGet W e.1 = some (some u) := by
  intro es
  induction es with
  | nil => intro acc W _ _ e he; cases he
  | cons e es ih =>
    intro acc W h hnd e' he'
    simp only [relax] at h
    cases hu : layerUpdate curV e.2 1 with
    | error err => rw [hu] at h; cases h
    | ok u =>
      rw [hu] at h
      rcases List.mem_cons.mp he' with he' | he'
      · subst he'
        refine ⟨u, hu, ?_⟩
        have hno : ∀ f ∈ es, f.1 ≠ e'.1 := by
          intro f hf
          have hni := (List.nodup_cons.mp hnd).1
          intro hc
          have hmem := List.mem_map_of_mem (fun p => p.1) hf
          simp only [hc] at hmem
          exact hni hmem
        rw [relax_frame curV es _ _ h e'.1 hno, dGet_dSet_self]
      · exact ih _ _ h (List.nodup_cons.mp hnd).2 e' he'

/-- C8: at the stratifier's fixed point — a map `V` the relaxation round of
lines 187-194 maps to itself — every head's layer is one more than the
maximum layer of the derived (head) variables in its rule bodies, default 0
(`maxBodyLayer V body 0`), so every derived variable occurring in a head's
body has a strictly smaller layer than the head. -/
theorem stratifier_fixed_point_layers (edges : List (Int × List Int))
    (V : List (Int × Option Nat))
    (hnd : (edges.map (fun e => e.1)).Nodup)
    (hfix : relax V edges V = .ok V) :
    ∀ e ∈ edges, dGet V e.1 = some (some (maxBodyLayer V e.2 0 + 1)) ∧
      ∀ i ∈ e.2, ∀ li, dGet V i = some (some li) →
        li < maxBodyLayer V e.2 0 + 1 := by
  intro e he
  rcases relax_head V edges V V hfix hnd e he with ⟨u, hu, hv⟩
  have hval := layerUpdate_val V e.2 0 u hu
  subst hval
  refine ⟨hv, ?_⟩
  intro i hi li hli
  have := (layerUpdate_lower V e.2 1 _ hu).2 i hi li hli
  omega

/-- Witness for C8 at a concrete acyclic edge set: heads 0 and 1, rule body
of 0 mentioning 1, fixed point `V = {0 ↦ 2, 1 ↦ 1}`. -/
theorem stratifier_fixed_point_layers_witness :
    dGet [((0 : Int), some 2), ((1 : Int), some 1)] (0 : Int) =
      some (some (maxBodyLayer [((0 : Int), some 2), ((1 : Int), some 1)]
        [(1 : Int)] 0 + 1)) :=
  (stratifier_fixed_point_layers [(0, [1]), (1, [])]
    [(0, some 2), (1, some 1)] (by decide) (by decide)
    (0, [1]) (by decide)).1


theorem stratifyAux_cyc : ∀ (f n : Nat),
    stratifyAux cycEdges f [(0, some n)] [(0, some (n + 1))] = .ok none := by
  intro f
  induction f with
  | zero => intro n; rfl
  | succ f ih =>
    intro n
    have hdiff : isDiff (cycEdges.map (fun e => e.1))
        [(0, some n)] [(0, some (n + 1))] = true := by
      simp [isDiff, dGet, cycEdges]
    have hrelax : relax [((0 : Int), some (n + 1))] cycEdges
        [((0 : Int), some (n + 1))] = .ok [((0 : Int), some (n + 2))] := by
      simp only [relax, cycEdges, layerUpdate, dGet, dSet, dMem, List.find?]
      norm_num [Nat.max_eq_right]
    simp only [stratifyAux, hdiff, if_true, hrelax]
    exact ih (n + 1)

/-- C2: on a cyclic axiom dependency graph the stratification loop of
`_handle_axioms` never exits: however many iterations are observed, it is
still running (`.ok none`), and no error of any kind — in particular no
cyclic-dependency error — is raised.  The head's layer grows by one forever. -/
theorem stratifier_cycle_diverges (fuel : Nat) :
    stratify cycEdges fuel = .ok none := by
  cases fuel with
  | zero => rfl
  | succ f =>
    have h0 : stratify cycEdges (f + 1) =
        stratifyAux cycEdges f [(0, some 0)] [(0, some 1)] := rfl
    rw [h0]
    exact stratifyAux_cyc f 0

/-! C4: the cost gate. -/



/-- C4 (counterexample): a negative cost is not rejected — the document with
cost `-3` parses, stores the operator with cost `-3`, and the gate accepts
the value. -/
theorem negative_cost_accepted :
    (parseLines c4NegCostDoc {}).map
      (fun st => st.operators.map (fun o => o.cost)) = .ok [-3] ∧
    costCheck (mkRat (-3) 1) = true := by decide

/-- C4 (amended): the cost gate `int(round(cost)) == float(cost)` accepts a
cost exactly when its value is an integer — fractional costs are a fatal
parse failure — but the sign is never examined, so negative integer costs
pass.  The second conjunct runs the parser on a `1.5`-cost operator block and
obtains the fatal assertion. -/
theorem cost_gate_integrality :
    (∀ q : ℚ, costCheck q = true ↔ q.den = 1) ∧
    parseLines c4FracDoc {} = .error (.assertionError "action costs must be int") := by
  constructor
  · intro q
    constructor
    · intro h
      simp only [costCheck] at h
      have heq : mkRat (pyRound q) 1 = q := eq_of_beq h
      rw [← heq, Rat.mkRat_one]
      exact Rat.den_intCast _
    · intro hden
      have hr : pyRound q = q.num := by
        simp only [pyRound, hden]
        norm_num
      simp only [costCheck, hr]
      rw [← hden, Rat.mkRat_self]
      exact beq_self_eq_true q
  · decide

/-! C5: don't-care pre-values. -/


/-- C5 (counterexample): the `-1` pre-value is stored in the operator's
precondition assignment when the operator is parsed (line 139 merges `pre`
unconditionally), refuting "dropped and never stored". -/
theorem dont_care_stored_at_parse :
    (parseLines c5DontCareDoc {}).map
      (fun st => st.operators.map (fun o => o.preconditions)) =
      .ok [[(2, -1)]] := by decide

/-- C5 (amended): `-1` pre-values survive parsing inside the operator's
precondition assignment, but the encoder skips them (line 255), so the
precondition list of every registered transition is the one computed from
the `-1`-free entries alone: filtering the `-1` entries away first changes
nothing. -/
theorem transition_preconds_skip_dont_care
    (dvars : List (Int × DidpObj)) (heads : List Int)
    (ps : List (Int × Int)) (acc : List Cond) :
    buildPreconds dvars heads (ps.filter (fun p => p.2 != -1)) acc =
      buildPreconds dvars heads ps acc := by
  induction ps generalizing acc with
  | nil => rfl
  | cons p ps ih =>
    by_cases hp : p.2 = -1
    · simp [buildPreconds, List.filter_cons, hp, ih]
    · have hb : (p.2 != -1) = true := by simp [hp]
      simp only [List.filter_cons, hb, if_true]
      simp only [buildPreconds, hp, if_false]
      by_cases hh : heads.contains p.1
      · simp only [hh, Bool.not_true, Bool.false_eq_true, if_false]
        cases didpGet dvars p.1
        · rfl
        · exact ih _
      · simp only [Bool.not_eq_true', hh, Bool.not_false, if_true]
        cases didpGet dvars p.1
        · rfl
        · exact ih _

/-! C6: duplicate keys in rule preconditions. -/




/-- C6: a duplicate variable in a rule's precondition list is NOT a parse
error — the `assert var_index not in preconditions` of line 93 compares the
string token against `int` keys, so it never fires, and the second pair
silently overwrites the first (the parsed rule's precondition is `{2: 1}`).
The same duplicate in an operator precondition list or in the goal block is
a fatal duplicate-key assertion, as those loops check the converted `int`. -/
theorem rule_duplicate_key_not_detected :
    (parseLines c6RuleDupDoc {}).map
      (fun st => st.rules.map (fun r => r.preconditions)) = .ok [[(2, 1)]] ∧
    parseLines c6OpDupDoc {} =
      .error (.assertionError "var not in preconditions") ∧
    parseLines c6GoalDupDoc {} =
      .error (.assertionError "var not in preconditions") := by decide

/-! C1: goal polarity on derived variables. -/

/-- C1: the base case `_handle_goal` builds for a derived goal entry inverts
the SAS+ polarity convention.  With the derived variable 0 bound to its
boolean function, the goal entry `(0, 0)` — value 0, i.e. `Atom`, "on" —
produces the negated reference, and the entry `(0, 1)` ("off") produces the
positive reference; consequently a full assignment whose derived function is
true, matching the goal "on", falsifies the built base case, and one whose
derived function is false satisfies it. -/
theorem goal_polarity_inverted :
    buildBaseCase [((0 : Int), DidpObj.boolFun 0)] [(0 : Int)]
      [((0 : Int), 0)] [] = .ok [Cond.negObj (DidpObj.boolFun 0)] ∧
    buildBaseCase [((0 : Int), DidpObj.boolFun 0)] [(0 : Int)]
      [((0 : Int), 1)] [] = .ok [Cond.refObj (DidpObj.boolFun 0)] ∧
    condsSat (fun _ => 0) (fun _ => true)
      [Cond.negObj (DidpObj.boolFun 0)] = false ∧
    condsSat (fun _ => 0) (fun _ => false)
      [Cond.negObj (DidpObj.boolFun 0)] = true := by decide

/-! Success-shape lemmas for the block parsers: what a block can change in
the state, and what its success certifies. -/

/-- A successful variable block appends exactly one variable, named by the
positional convention for the prior count, and touches nothing else; its
first line is that name. -/
theorem parseVariableBlock_ok {st : ParseState} {ls : List String}
    {out : ParseState × List String} (h : parseVariableBlock st ls = .ok out) :
    (∃ vals al, out.1 = { st with vars := st.vars ++
        [⟨"var" ++ toString st.vars.length, vals, al⟩] }) ∧
    ls.head? = some ("var" ++ toString st.vars.length) := by
  unfold parseVariableBlock at h
  repeat' split at h
  all_goals cases h
  constructor
  · exact ⟨_, _, rfl⟩
  · assumption

/-- A successful rule block appends one rule with new value 0 whose head
passed the two-valued `Atom`/`NegatedAtom` domain checks, sets the axioms
flag, updates the head and edge dicts, and touches nothing else. -/
theorem parseRuleBlock_ok {st : ParseState} {ls : List String}
    {out : ParseState × List String} (h : parseRuleBlock st ls = .ok out) :
    ∃ r, out.1 =
      { st with
        detected_axioms := true,
        rules := st.rules ++ [r],
        axiom_heads := headsAppend st.axiom_heads r.var r,
        axiom_edges := edgesUpdate st.axiom_edges r.var
          (r.preconditions.map (fun p => p.1)) } ∧
      r.val = 0 ∧
      ∃ v v0 v1, varsGet st.vars r.var = .ok v ∧ v.values = [v0, v1] ∧
        strStarts v0 "Atom" = true ∧ strStarts v1 "NegatedAtom" = true := by
  unfold parseRuleBlock at h
  repeat' split at h
  all_goals cases h
  refine ⟨⟨_, _, _⟩, rfl, ?_, ?_⟩
  · assumption
  · exact ⟨_, _, _, by assumption, by assumption, by assumption, by assumption⟩

/-- A successful operator block appends one operator, possibly raises the
conditional-effects flag, and touches nothing else. -/
theorem parseOperatorBlock_ok {st : ParseState} {ls : List String}
    {out : ParseState × List String}
    (h : parseOperatorBlock st ls = .ok out) :
    ∃ op ce, out.1 =
      { st with
        detected_conditional_effects := ce,
        operators := st.operators ++ [op] } := by
  unfold parseOperatorBlock at h
  repeat' split at h
  all_goals cases h
  exact ⟨_, _, rfl⟩

/-- A successful goal block rewrites the goal assignment and touches nothing
else. -/
theorem parseGoalBlock_ok {st : ParseState} {ls : List String}
    {out : ParseState × List String} (h : parseGoalBlock st ls = .ok out) :
    ∃ g, out.1 = { st with goal := g } := by
  unfold parseGoalBlock at h
  repeat' split at h
  all_goals cases h
  exact ⟨_, rfl⟩

/-- A successful initial-state block rewrites the init assignment and touches
nothing else. -/
theorem parseStateBlock_ok {st : ParseState} {ls : List String}
    {out : ParseState × List String} (h : parseStateBlock st ls = .ok out) :
    ∃ ini, out.1 = { st with init := ini } := by
  unfold parseStateBlock at h
  repeat' split at h
  all_goals cases h
  exact ⟨_, rfl⟩

/-! The remaining line stream of a successful block is a sublist of the
block's input stream (every block only consumes lines). -/

theorem parsePairs_sub : ∀ (n : Nat) (ls : List String) (acc : List (Int × Int))
    (pr : List (Int × Int) × List String),
    parsePairs n ls acc = .ok pr → pr.2.Sublist ls := by
  intro n
  induction n with
  | zero =>
    intro ls acc pr h
    cases h
    exact List.Sublist.refl _
  | succ n ih =>
    intro ls acc pr h
    cases ls with
    | nil => cases h
    | cons l ls =>
      simp only [parsePairs] at h
      repeat' split at h
      all_goals first
        | cases h
        | exact (ih _ _ _ h).trans (List.sublist_cons_self _ _)

theorem parseRulePairs_sub : ∀ (n : Nat) (ls : List String)
    (acc : List (Int × Int)) (pr : List (Int × Int) × List String),
    parseRulePairs n ls acc = .ok pr → pr.2.Sublist ls := by
  intro n
  induction n with
  | zero =>
    intro ls acc pr h
    cases h
    exact List.Sublist.refl _
  | succ n ih =>
    intro ls acc pr h
    cases ls with
    | nil => cases h
    | cons l ls =>
      simp only [parseRulePairs] at h
      repeat' split at h
      all_goals first
        | cases h
        | exact (ih _ _ _ h).trans (List.sublist_cons_self _ _)

theorem parseEffects_sub : ∀ (n : Nat) (ls : List String)
    (pre eff : List (Int × Int)) (flag : Bool)
    (pr : List (Int × Int) × List (Int × Int) × Bool × List String),
    parseEffects n ls pre eff flag = .ok pr → pr.2.2.2.Sublist ls := by
  intro n
  induction n with
  | zero =>
    intro ls pre eff flag pr h
    cases h
    exact List.Sublist.refl _
  | succ n ih =>
    intro ls pre eff flag pr h
    cases ls with
    | nil => cases h
    | cons l ls =>
      simp only [parseEffects] at h
      repeat' split at h
      all_goals first
        | cases h
        | exact (ih _ _ _ _ _ h).trans (List.sublist_cons_self _ _)

theorem parseStateVals_sub : ∀ (n : Nat) (i : Int) (ls : List String)
    (acc : List (Int × Int)) (pr : List (Int × Int) × List String),
    parseStateVals n i ls acc = .ok pr → pr.2.Sublist ls := by
  intro n
  induction n with
  | zero =>
    intro i ls acc pr h
    cases h
    exact List.Sublist.refl _
  | succ n ih =>
    intro i ls acc pr h
    simp only [parseStateVals] at h
    repeat' split at h
    all_goals first
      | cases h
      | exact (ih _ _ _ _ h).trans (List.tail_sublist _)

theorem parseVariableBlock_sub {st : ParseState} {ls : List String}
    {out : ParseState × List String} (h : parseVariableBlock st ls = .ok out) :
    out.2.Sublist ls := by
  unfold parseVariableBlock at h
  repeat' split at h
  all_goals cases h
  exact (List.tail_sublist _).trans ((List.drop_sublist _ _).trans
    ((List.tail_sublist _).trans ((List.tail_sublist _).trans
      (List.tail_sublist _))))

theorem parseRuleBlock_sub {st : ParseState} {ls : List String}
    {out : ParseState × List String} (h : parseRuleBlock st ls = .ok out) :
    out.2.Sublist ls := by
  unfold parseRuleBlock at h
  repeat' split at h
  all_goals cases h
  exact (List.tail_sublist _).trans ((List.tail_sublist _).trans
    ((parseRulePairs_sub _ _ _ _ (by assumption)).trans (List.tail_sublist _)))

theorem parseOperatorBlock_sub {st : ParseState} {ls : List String}
    {out : ParseState × List String}
    (h : parseOperatorBlock st ls = .ok out) : out.2.Sublist ls := by
  unfold parseOperatorBlock at h
  repeat' split at h
  all_goals cases h
  exact ((List.tail_sublist _).trans ((List.tail_sublist _).trans
    (parseEffects_sub _ _ _ _ _ _ (by assumption)))).trans
    ((List.tail_sublist _).trans
      ((parsePairs_sub _ _ _ _ (by assumption)).trans
        ((List.tail_sublist _).trans (List.tail_sublist _))))

theorem parseGoalBlock_sub {st : ParseState} {ls : List String}
    {out : ParseState × List String} (h : parseGoalBlock st ls = .ok out) :
    out.2.Sublist ls := by
  unfold parseGoalBlock at h
  repeat' split at h
  all_goals cases h
  exact (List.tail_sublist _).trans
    ((parsePairs_sub _ _ _ _ (by assumption)).trans (List.tail_sublist _))

theorem parseStateBlock_sub {st : ParseState} {ls : List String}
    {out : ParseState × List String} (h : parseStateBlock st ls = .ok out) :
    out.2.Sublist ls := by
  unfold parseStateBlock at h
  repeat' split at h
  all_goals cases h
  exact (List.tail_sublist _).trans (parseStateVals_sub _ _ _ _ _ (by assumption))

/-! Inductions over the fuelled main loop. -/

/-- A property of the parse state preserved by every block is preserved by the
whole loop. -/
theorem parseLinesF_preserve (P : ParseState → Prop)
    (hv : ∀ st ls out, parseVariableBlock st ls = .ok out → P st → P out.1)
    (hr : ∀ st ls out, parseRuleBlock st ls = .ok out → P st → P out.1)
    (ho : ∀ st ls out, parseOperatorBlock st ls = .ok out → P st → P out.1)
    (hg : ∀ st ls out, parseGoalBlock st ls = .ok out → P st → P out.1)
    (hs : ∀ st ls out, parseStateBlock st ls = .ok out → P st → P out.1) :
    ∀ (fuel : Nat) (ls : List String) (st st' : ParseState),
      parseLinesF fuel ls st = .ok st' → P st → P st' := by
  intro fuel
  induction fuel with
  | zero =>
    intro ls st st' h hp
    cases h
    exact hp
  | succ fuel ih =>
    intro ls st st' h hp
    cases ls with
    | nil => cases h; exact hp
    | cons line rest =>
      simp only [parseLinesF] at h
      split at h
      · cases hb : parseVariableBlock st rest with
        | error e => rw [hb] at h; simp at h
        | ok out => rw [hb] at h; exact ih _ _ _ h (hv _ _ _ hb hp)
      · split at h
        · cases hb : parseRuleBlock st rest with
          | error e => rw [hb] at h; simp at h
          | ok out => rw [hb] at h; exact ih _ _ _ h (hr _ _ _ hb hp)
        · split at h
          · cases hb : parseOperatorBlock st rest with
            | error e => rw [hb] at h; simp at h
            | ok out => rw [hb] at h; exact ih _ _ _ h (ho _ _ _ hb hp)
          · split at h
            · cases hb : parseGoalBlock st rest with
              | error e => rw [hb] at h; simp at h
              | ok out => rw [hb] at h; exact ih _ _ _ h (hg _ _ _ hb hp)
            · split at h
              · cases hb : parseStateBlock st rest with
                | error e => rw [hb] at h; simp at h
                | ok out => rw [hb] at h; exact ih _ _ _ h (hs _ _ _ hb hp)
              · exact ih _ _ _ h hp

/-- A document with no `begin_state` line leaves the initial assignment as it
was: only the `begin_state` branch of the loop writes it. -/
theorem parseLinesF_init : ∀ (fuel : Nat) (ls : List String) (st st' : ParseState),
    parseLinesF fuel ls st = .ok st' → "begin_state" ∉ ls →
      st'.init = st.init := by
  intro fuel
  induction fuel with
  | zero =>
    intro ls st st' h _
    cases h
    rfl
  | succ fuel ih =>
    intro ls st st' h hmem
    cases ls with
    | nil => cases h; rfl
    | cons line rest =>
      have hline : line ≠ "begin_state" :=
        fun hc => hmem (hc ▸ List.mem_cons_self _ _)
      have hrest : "begin_state" ∉ rest :=
        fun hc => hmem (List.mem_cons_of_mem _ hc)
      simp only [parseLinesF] at h
      split at h
      · cases hb : parseVariableBlock st rest with
        | error e => rw [hb] at h; simp at h
        | ok out =>
          rw [hb] at h
          have hmem2 : "begin_state" ∉ out.2 :=
            fun hc => hrest ((parseVariableBlock_sub hb).subset hc)
          rcases (parseVariableBlock_ok hb).1 with ⟨vals, al, hout⟩
          rw [ih _ _ _ h hmem2, hout]
      · split at h
        · cases hb : parseRuleBlock st rest with
          | error e => rw [hb] at h; simp at h
          | ok out =>
            rw [hb] at h
            have hmem2 : "begin_state" ∉ out.2 :=
              fun hc => hrest ((parseRuleBlock_sub hb).subset hc)
            rcases parseRuleBlock_ok hb with ⟨r, hout, -, -⟩
            rw [ih _ _ _ h hmem2, hout]
        · split at h
          · cases hb : parseOperatorBlock st rest with
            | error e => rw [hb] at h; simp at h
            | ok out =>
              rw [hb] at h
              have hmem2 : "begin_state" ∉ out.2 :=
                fun hc => hrest ((parseOperatorBlock_sub hb).subset hc)
              rcases parseOperatorBlock_ok hb with ⟨op, ce, hout⟩
              rw [ih _ _ _ h hmem2, hout]
          · split at h
            · cases hb : parseGoalBlock st rest with
              | error e => rw [hb] at h; simp at h
              | ok out =>
                rw [hb] at h
                have hmem2 : "begin_state" ∉ out.2 :=
                  fun hc => hrest ((parseGoalBlock_sub hb).subset hc)
                rcases parseGoalBlock_ok hb with ⟨g, hout⟩
                rw [ih _ _ _ h hmem2, hout]
            · -- the `begin_state` test was already resolved against `hline`
              -- by the preceding split, leaving the skip branch
              exact ih _ _ _ h hrest

/-- A successful `__init__` wraps the parse result with the still-empty
model. -/
theorem mkTransformer_ok {ls : List String} {t : Sas2DypdlTransformer}
    (h : mkTransformer ls = .ok t) :
    parseLines ls {} = .ok t.st ∧ t.model = DidpModel.empty := by
  unfold mkTransformer at h
  split at h
  · cases h
  · cases h
    exact ⟨by assumption, rfl⟩

/-! C9: positional variable ids. -/

/-- C9: variable identity is positional.  First conjunct: in every
successfully parsed document, the variable at position `i` (that position
being its id — ids are never read from the text) is named by the positional
convention `"var" ++ i`.  Second conjunct: a variable block can only succeed
when its declared name — the block's first line — equals the positional name
for the next free id, i.e. the parser asserts the convention and fails on a
mismatch. -/
theorem variable_ids_positional :
    (∀ (ls : List String) (st' : ParseState), parseLines ls {} = .ok st' →
      ∀ i, i < st'.vars.length →
        (st'.vars.getD i ⟨"", [], 0⟩).name = "var" ++ toString i) ∧
    (∀ (st : ParseState) (ls : List String) (out : ParseState × List String),
      parseVariableBlock st ls = .ok out →
      ls.head? = some ("var" ++ toString st.vars.length)) := by
  constructor
  · intro ls st' h
    refine parseLinesF_preserve
      (fun st => ∀ i, i < st.vars.length →
        (st.vars.getD i ⟨"", [], 0⟩).name = "var" ++ toString i)
      ?_ ?_ ?_ ?_ ?_ ls.length ls {} st' h (by intro i hi; simp at hi)
    · intro st ls out hb hp i hi
      rcases (parseVariableBlock_ok hb).1 with ⟨vals, al, hout⟩
      rw [hout]
      rw [hout] at hi
      simp only [List.length_append, List.length_cons, List.length_nil] at hi
      rcases Nat.lt_or_ge i st.vars.length with hlt | hge
      · rw [List.getD_append _ _ _ _ hlt]
        exact hp i hlt
      · have hieq : i = st.vars.length := by omega
        subst hieq
        rw [List.getD_append_right _ _ _ _ hge]
        simp
    · intro st ls out hb hp i hi
      rcases parseRuleBlock_ok hb with ⟨r, hout, -, -⟩
      rw [hout] at hi ⊢
      exact hp i hi
    · intro st ls out hb hp i hi
      rcases parseOperatorBlock_ok hb with ⟨op, ce, hout⟩
      rw [hout] at hi ⊢
      exact hp i hi
    · intro st ls out hb hp i hi
      rcases parseGoalBlock_ok hb with ⟨g, hout⟩
      rw [hout] at hi ⊢
      exact hp i hi
    · intro st ls out hb hp i hi
      rcases parseStateBlock_ok hb with ⟨ini, hout⟩
      rw [hout] at hi ⊢
      exact hp i hi
  · intro st ls out h
    exact (parseVariableBlock_ok h).2

/-! C7: rule-block validation at parse time. -/

/-- C7: the rule parser validates at parse time, before any later gating
(the axioms flag is set, yet the block is fully checked): a rule block can
only succeed when the head variable exists, its domain is exactly two values
following the `Atom…`(true, index 0)/`NegatedAtom…`(false, index 1)
convention, and the rule's new value is 0 — so a rule proving "false" makes
the whole parse fail immediately and is never queued. -/
theorem rule_block_validated (st : ParseState) (ls : List String)
    (out : ParseState × List String) (h : parseRuleBlock st ls = .ok out) :
    out.1.detected_axioms = true ∧
    ∃ r, out.1.rules = st.rules ++ [r] ∧ r.val = 0 ∧
      ∃ v v0 v1, varsGet st.vars r.var = .ok v ∧ v.values = [v0, v1] ∧
        strStarts v0 "Atom" = true ∧ strStarts v1 "NegatedAtom" = true := by
  rcases parseRuleBlock_ok h with ⟨r, hout, hval, hrest⟩
  rw [hout]
  exact ⟨rfl, r, rfl, hval, hrest⟩




/-- Witness for C7 at the concrete rule block `c7Ls`. -/
theorem rule_block_validated_witness :
    parseRuleBlock varSt c7Ls = .ok c7Out ∧
    (c7Out.1.detected_axioms = true ∧
      ∃ r, c7Out.1.rules = varSt.rules ++ [r] ∧ r.val = 0 ∧
        ∃ v v0 v1, varsGet varSt.vars r.var = .ok v ∧ v.values = [v0, v1] ∧
          strStarts v0 "Atom" = true ∧ strStarts v1 "NegatedAtom" = true) :=
  ⟨by decide, rule_block_validated varSt c7Ls c7Out (by decide)⟩

/-! C3: the unsupported-feature gate. -/

/-- C3: once parsing has completed (the constructor returned a transformer),
a document whose parse raised either feature flag makes `transform` fail with
the `NotImplementedError` whose message names both unsupported features —
in particular the one(s) that triggered it — and the model the transformer
holds is still the freshly constructed empty one: no state variable,
transition or base case was ever added. -/
theorem unsupported_features_gate (ls : List String)
    (t : Sas2DypdlTransformer) (hmk : mkTransformer ls = .ok t)
    (hflag : (t.st.detected_axioms || t.st.detected_conditional_effects) = true) :
    t.transform = .error (.notImplementedError unsupportedMsg) ∧
    t.model = DidpModel.empty ∧
    List.IsInfix "Axioms".data unsupportedMsg.data ∧
    List.IsInfix "conditional effects".data unsupportedMsg.data := by
  refine ⟨?_, (mkTransformer_ok hmk).2, ?_, ?_⟩
  · simp [Sas2DypdlTransformer.transform, hflag]
  · exact ⟨[], " and conditional effects are not yet supported.".data, by decide⟩
  · exact ⟨"Axioms and ".data, " are not yet supported.".data, by decide⟩



/-- Witness for C3 at the concrete axiom document `c3Doc`. -/
theorem unsupported_features_gate_witness :
    mkTransformer c3Doc = .ok c3T ∧
    (c3T.transform = .error (.notImplementedError unsupportedMsg) ∧
      c3T.model = DidpModel.empty ∧
      List.IsInfix "Axioms".data unsupportedMsg.data ∧
      List.IsInfix "conditional effects".data unsupportedMsg.data) :=
  ⟨by decide, unsupported_features_gate c3Doc c3T (by decide) (by decide)⟩

/-! C10: transform on a document with no initial-state block. -/

/-- C10 (amended): for a document with at least one variable, no
`begin_state` line, and neither unsupported-feature flag raised, the
constructor succeeds with an empty initial assignment and `transform` then
fails with the key-lookup error `KeyError(0)` while registering the first
state variable's target — not with a structural parse error, and without
producing a model.  (Without the flag conditions the unsupported-feature
error fires first; see the counterexample.) -/
theorem missing_init_state_key_error (ls : List String)
    (t : Sas2DypdlTransformer) (hmk : mkTransformer ls = .ok t)
    (hns : "begin_state" ∉ ls)
    (hax : t.st.detected_axioms = false)
    (hce : t.st.detected_conditional_effects = false)
    (hvne : t.st.vars ≠ []) :
    t.st.init = [] ∧ t.transform = .error (.keyError 0) := by
  rcases mkTransformer_ok hmk with ⟨hp, hm⟩
  have hinit : t.st.init = [] := parseLinesF_init ls.length ls {} t.st hp hns
  have hheads : t.st.axiom_heads = [] := by
    refine parseLinesF_preserve
      (fun st => st.detected_axioms = false → st.axiom_heads = [])
      ?_ ?_ ?_ ?_ ?_ ls.length ls {} t.st hp (fun _ => rfl) hax
    · intro st ls out hb hp0 hfl
      rcases (parseVariableBlock_ok hb).1 with ⟨vals, al, hout⟩
      rw [hout] at hfl ⊢
      exact hp0 hfl
    · intro st ls out hb hp0 hfl
      rcases parseRuleBlock_ok hb with ⟨r, hout, -, -⟩
      rw [hout] at hfl
      cases hfl
    · intro st ls out hb hp0 hfl
      rcases parseOperatorBlock_ok hb with ⟨op, ce, hout⟩
      rw [hout] at hfl ⊢
      exact hp0 hfl
    · intro st ls out hb hp0 hfl
      rcases parseGoalBlock_ok hb with ⟨g, hout⟩
      rw [hout] at hfl ⊢
      exact hp0 hfl
    · intro st ls out hb hp0 hfl
      rcases parseStateBlock_ok hb with ⟨ini, hout⟩
      rw [hout] at hfl ⊢
      exact hp0 hfl
  refine ⟨hinit, ?_⟩
  obtain ⟨v, vs, hvv⟩ : ∃ v vs, t.st.vars = v :: vs := by
    cases hcv : t.st.vars with
    | nil => exact absurd hcv hvne
    | cons v vs => exact ⟨v, vs, rfl⟩
  unfold Sas2DypdlTransformer.transform
  rw [hax, hce, hvv, hinit, hheads, hm]
  rfl



/-- Witness for C10 at the concrete document `c10Doc`. -/
theorem missing_init_state_key_error_witness :
    mkTransformer c10Doc = .ok c10T ∧
    (c10T.st.init = [] ∧ c10T.transform = .error (.keyError 0)) :=
  ⟨by decide, missing_init_state_key_error c10Doc c10T (by decide) (by decide)
    (by decide) (by decide) (by decide)⟩


/-- C10 (counterexample to the claim as stated): `c10AxDoc` has a non-derived
variable (id 1; the only axiom head is 0) and no `begin_state` line, its
constructor succeeds, but `transform` raises the unsupported-feature
`NotImplementedError`, not a key-lookup error. -/
theorem missing_init_unsupported_first :
    "begin_state" ∉ c10AxDoc ∧
    (mkTransformer c10AxDoc).map
      (fun t => (t.st.vars.length, headKeys t.st.axiom_heads, t.transform)) =
      .ok (2, [0], .error (.notImplementedError unsupportedMsg)) := by decide

end Pddl2Dypdl
